import Mathlib

/-!
Verification development for the iDDS Transformer agent
(src/main/lib/idds/agents/transformer/transformer.py).

The embedding is shallow: each method of the `Transformer` class that the
claims touch is translated to a pure Lean function.  Database side effects
(catalog and transform updates) are made explicit as a list of `Write`
events accumulated by each function, and a raised Python exception is an
`Except.error` value.  Gateway reads (collection fetches, content status
statistics) are passed in as arguments, standing for the value the
persistence gateway returns at the moment of the call.

The enum classes live in idds.common.constants, which is not part of this
excerpt; their members are modelled from the spec (sections 3 and 4.3).
-/

namespace IDDS

/-- Modelled from the spec: `ContentStatus` members used by this module —
section 3 lists the content status enum as New, Failed, Available,
FinalFailed, "plus others"; `Other` stands for any of the further members
(idds.common.constants is not part of the excerpt).  The source compares a
statistics key both with the enum member and with its numeric `.value`;
both forms denote the same status, so a key is modelled as the status it
denotes. -/
inductive ContentStatus
  | New
  | Failed
  | Available
  | FinalFailed
  | Other
deriving DecidableEq

/-- Modelled from the spec: `CollectionStatus` members — section 3 lists
New, Open, Update, Updated, Closed, SubClosed, Failed
(idds.common.constants is not part of the excerpt). -/
inductive CollectionStatus
  | New
  | Open
  | Update
  | Updated
  | Closed
  | SubClosed
  | Failed
deriving DecidableEq

/-- Modelled from the spec: attribute access on the `CollectionStatus`
enum class resolves a member by name; a name that is not a member (such as
the literal `Updated1` written in the source monitor loop) resolves to
nothing, which in Python raises `AttributeError`. -/
def CollectionStatus.attr : String → Option CollectionStatus
  | "New" => some CollectionStatus.New
  | "Open" => some CollectionStatus.Open
  | "Update" => some CollectionStatus.Update
  | "Updated" => some CollectionStatus.Updated
  | "Closed" => some CollectionStatus.Closed
  | "SubClosed" => some CollectionStatus.SubClosed
  | "Failed" => some CollectionStatus.Failed
  | _ => none

/-- Modelled from the spec: `TransformStatus` members — section 4.3 lists
Ready, Transforming, Finished, SubFinished, Failed
(idds.common.constants is not part of the excerpt). -/
inductive TransformStatus
  | Ready
  | Transforming
  | Finished
  | SubFinished
  | Failed
deriving DecidableEq

/-- `CollectionRelationType` members used by the module. -/
inductive CollectionRelationType
  | Input
  | Output
  | Log
deriving DecidableEq

/-- A content status statistics mapping, as returned by
`core_catalog.get_content_status_statistics`: an association of distinct
content statuses to their counts (the keys of the Python dict, in
iteration order). -/
abbrev Stats := List (ContentStatus × Nat)

/-- The fields of a transform record that this module reads or writes.
`transform_metadata` is modelled by the two keys the module uses
(spec section 3: it includes `input_collection_changed` and
`status_statistics`); `status_statistics = none` means the key is absent
from the metadata mapping. -/
structure Transform where
  transform_id : Nat
  status : TransformStatus
  input_collection_changed : Bool
  status_statistics : Option Stats
deriving DecidableEq

/-- The fields of a collection record that this module reads or writes.
`coll_metadata` is a string mapping read by key (the module reads
`ddm_status`). -/
structure Collection where
  coll_id : Nat
  coll_status : CollectionStatus
  relation_type : CollectionRelationType
  coll_metadata : List (String × String)
deriving DecidableEq

/-- A persistence write issued through the gateway.  `addContents` stands
for the `core_catalog.add_contents(new_out_contents)` call (in the source
the argument is the result of `get_new_output_contents`, whose body is
`pass`, hence `None`); `updateCollection` stands for
`core_catalog.update_collection(coll_id, parameters)` with the given new
collection status. -/
inductive Write
  | addContents
  | updateCollection (coll_id : Nat) (coll_status : CollectionStatus)
deriving DecidableEq

/-- A raised Python exception, by kind.  `idds msg` is the internal
`IDDSException`; the others are builtin exception classes. -/
inductive ErrKind
  | idds (msg : String)
  | indexError
  | keyError
  | attributeError
  | nameError
deriving DecidableEq

/-- The effect of running one method: the persistence writes it performed,
in order, and either its return value or the exception that escaped it
(writes performed before the raise are kept). -/
structure Eff (α : Type) where
  writes : List Write
  result : Except ErrKind α

instance {ε α : Type} [DecidableEq ε] [DecidableEq α] : DecidableEq (Except ε α) := fun x y =>
  match x, y with
  | Except.ok a, Except.ok b => decidable_of_iff (a = b) (by simp)
  | Except.ok _, Except.error _ => isFalse (by simp)
  | Except.error _, Except.ok _ => isFalse (by simp)
  | Except.error e, Except.error f => decidable_of_iff (e = f) (by simp)

instance {α : Type} [DecidableEq α] : DecidableEq (Eff α) := fun x y =>
  decidable_of_iff (x.writes = y.writes ∧ x.result = y.result)
    (by cases x; cases y; simp [Eff.mk.injEq])

/-- First-match lookup in an association list (the semantics of reading a
Python dict key, with `none` for a missing key). -/
def alookup {κ α : Type} [DecidableEq κ] : List (κ × α) → κ → Option α
  | [], _ => none
  | (k, v) :: r, key => if k = key then some v else alookup r key

/-- The configuration error message raised by the single-collection
guards (transformer.py lines 126 and 153). -/
def configErrorMsg : String :=
  "IDDS currently doesn\x27t support transforms with more than one input or output"

/-- Embedding of `Transformer.fill_new_output_contents`
(transformer.py lines 124-146).  The guard is the first statement; then
`input_collections[0]` and `output_collections[0]` are read (an empty
list raises `IndexError`).  The body runs only when the input collection
status is `Update`: it calls `get_new_output_contents` (whose body is
`pass`), registers its result via `add_contents`, reclassifies the input
collection from its `coll_metadata[ddm_status]` and marks the output
collection `Updated`. -/
def fill_new_output_contents (_transform : Transform)
    (input_collections output_collections log_collections : List Collection) : Eff Unit :=
  if input_collections.length > 1 ∨ output_collections.length > 1 ∨ log_collections.length > 1 then
    ⟨[], Except.error (ErrKind.idds configErrorMsg)⟩
  else
    match input_collections.head? with
    | none => ⟨[], Except.error ErrKind.indexError⟩
    | some input_collection =>
      match output_collections.head? with
      | none => ⟨[], Except.error ErrKind.indexError⟩
      | some output_collection =>
        if input_collection.coll_status = CollectionStatus.Update then
          match alookup input_collection.coll_metadata "ddm_status" with
          | none => ⟨[Write.addContents], Except.error ErrKind.keyError⟩
          | some ddm =>
            let parameters :=
              if ddm = "closed" then CollectionStatus.Closed else CollectionStatus.Open
            ⟨[Write.addContents,
              Write.updateCollection input_collection.coll_id parameters,
              Write.updateCollection output_collection.coll_id CollectionStatus.Updated],
             Except.ok ()⟩
        else ⟨[], Except.ok ()⟩

/-- Embedding of `Transformer.check_output_contents`
(transformer.py lines 151-177).  The guard is the first statement; then
`output_collections[0]` is read (the input list is never indexed), the
content status statistics of that collection are fetched (`statsOf`), and
the branch is chosen on the list of statistics keys.  In the fourth
branch `generate_processing` is called, whose body is `pass`, so it
contributes no effect.  The fall-through returns the transform
unchanged. -/
def check_output_contents (transform : Transform)
    (input_collections output_collections log_collections : List Collection)
    (statsOf : Nat → Stats) : Eff Transform :=
  if input_collections.length > 1 ∨ output_collections.length > 1 ∨ log_collections.length > 1 then
    ⟨[], Except.error (ErrKind.idds configErrorMsg)⟩
  else
    match output_collections.head? with
    | none => ⟨[], Except.error ErrKind.indexError⟩
    | some output_collection =>
      let contents := statsOf output_collection.coll_id
      let content_status_keys := contents.map Prod.fst
      if content_status_keys = [ContentStatus.Available] then
        ⟨[Write.updateCollection output_collection.coll_id CollectionStatus.Closed],
         Except.ok { transform with status := TransformStatus.Finished,
                                    status_statistics := some contents }⟩
      else if content_status_keys = [ContentStatus.FinalFailed] then
        ⟨[Write.updateCollection output_collection.coll_id CollectionStatus.Failed],
         Except.ok { transform with status := TransformStatus.Failed,
                                    status_statistics := some contents }⟩
      else if content_status_keys.length = 2
          ∧ ContentStatus.FinalFailed ∈ content_status_keys
          ∧ ContentStatus.Available ∈ content_status_keys then
        ⟨[Write.updateCollection output_collection.coll_id CollectionStatus.SubClosed],
         Except.ok { transform with status := TransformStatus.SubFinished,
                                    status_statistics := some contents }⟩
      else if ContentStatus.New ∈ content_status_keys
          ∨ ContentStatus.Failed ∈ content_status_keys then
        ⟨[], Except.ok { transform with status := TransformStatus.Transforming,
                                        status_statistics := some contents }⟩
      else
        ⟨[], Except.ok transform⟩

/-- The input-collection loop of `Transformer.process_monitor_transform`
(transformer.py lines 193-195): each input collection whose status is
`Updated` triggers a call to `fill_new_output_contents`, whose return
value is discarded but whose effects and exceptions propagate. -/
def monitorInputLoop (transform : Transform)
    (input_collections output_collections log_collections : List Collection) :
    List Collection → Eff Unit
  | [] => ⟨[], Except.ok ()⟩
  | coll :: rest =>
    if coll.coll_status = CollectionStatus.Updated then
      let r := fill_new_output_contents transform input_collections output_collections log_collections
      match r.result with
      | Except.error e => ⟨r.writes, Except.error e⟩
      | Except.ok _ =>
        let r2 := monitorInputLoop transform input_collections output_collections log_collections rest
        ⟨r.writes ++ r2.writes, r2.result⟩
    else monitorInputLoop transform input_collections output_collections log_collections rest

/-- The output-collection loop of `Transformer.process_monitor_transform`
(transformer.py lines 197-199).  Each iteration first evaluates the
expression `CollectionStatus.Updated1`; since `Updated1` is not a member
of the enum, this raises `AttributeError` as soon as the loop body runs.
Had the attribute existed, a match would return the result of
`check_output_contents`; falling off the loop returns `None`. -/
def monitorOutputLoop (transform : Transform)
    (input_collections output_collections log_collections : List Collection)
    (statsOf : Nat → Stats) : List Collection → Eff (Option Transform)
  | [] => ⟨[], Except.ok none⟩
  | coll :: rest =>
    match CollectionStatus.attr "Updated1" with
    | none => ⟨[], Except.error ErrKind.attributeError⟩
    | some st =>
      if coll.coll_status = st then
        let r := check_output_contents transform input_collections output_collections
                   log_collections statsOf
        ⟨r.writes, r.result.map some⟩
      else monitorOutputLoop transform input_collections output_collections log_collections
             statsOf rest

/-- Embedding of `Transformer.process_monitor_transform`
(transformer.py lines 179-199): partition the fetched collections by
relation type (one pass appending to three lists, equal to three
order-preserving filters), run the input loop, then the output loop.
A fall-through (no output collection returned) yields `none`, the
implicit Python `None`. -/
def process_monitor_transform (transform : Transform) (collections : List Collection)
    (statsOf : Nat → Stats) : Eff (Option Transform) :=
  let input_collections := collections.filter
    (fun c => decide (c.relation_type = CollectionRelationType.Input))
  let output_collections := collections.filter
    (fun c => decide (c.relation_type = CollectionRelationType.Output))
  let log_collections := collections.filter
    (fun c => decide (c.relation_type = CollectionRelationType.Log))
  let r1 := monitorInputLoop transform input_collections output_collections log_collections
              input_collections
  match r1.result with
  | Except.error e => ⟨r1.writes, Except.error e⟩
  | Except.ok _ =>
    let r2 := monitorOutputLoop transform input_collections output_collections log_collections
                statsOf output_collections
    ⟨r1.writes ++ r2.writes, r2.result⟩

/-- The nested-dict result of
`core_catalog.get_collections_by_request_transform_id(transform_id=tid)`
as the source iterates it: an outer mapping from request_id to an inner
mapping from transform_id to the collection list. -/
abbrev CollMap := List (Nat × List (Nat × List Collection))

/-- Embedding of `Transformer.generate_transform_outputs`
(transformer.py lines 53-73).  The first statement of its body iterates
`ret_collections`, a name that is not defined in the function (it takes
only `transform` and `collections`), so calling it raises `NameError`
before any effect. -/
def generate_transform_outputs (_transform : Transform) (_collections : List Collection) :
    Eff (Option Unit) :=
  ⟨[], Except.error ErrKind.nameError⟩

/-- The inner loop of `Transformer.process_new_transform`
(transformer.py lines 82-86): `for transform_id in ret_collections`
iterates the outer keys again; on a key equal to the processed
transform_id it reads `ret_collections[request_id][transform_id]`
(either dict access may raise `KeyError`) and sets the loop state
`(collections, ret_transform-is-set)`. -/
def pntLoopInner (ret_collections : CollMap) (tid request_id : Nat) :
    List Nat → List Collection × Bool → Except ErrKind (List Collection × Bool)
  | [], st => Except.ok st
  | k :: ks, st =>
    if k = tid then
      match alookup ret_collections request_id with
      | none => Except.error ErrKind.keyError
      | some inner =>
        match alookup inner k with
        | none => Except.error ErrKind.keyError
        | some colls => pntLoopInner ret_collections tid request_id ks (colls, true)
    else pntLoopInner ret_collections tid request_id ks st

/-- The outer loop of `Transformer.process_new_transform`
(transformer.py lines 82-86): `for request_id in ret_collections` over the
outer keys, running the inner loop for each. -/
def pntLoopOuter (ret_collections : CollMap) (tid : Nat) :
    List Nat → List Collection × Bool → Except ErrKind (List Collection × Bool)
  | [], st => Except.ok st
  | request_id :: rest, st =>
    match pntLoopInner ret_collections tid request_id
            (ret_collections.map Prod.fst) st with
    | Except.error e => Except.error e
    | Except.ok st2 => pntLoopOuter ret_collections tid rest st2

/-- Embedding of `Transformer.process_new_transform`
(transformer.py lines 75-91): run the nested loops starting from
`collections = []`, `ret_transform = None`; if `ret_transform` was set and
`transform_metadata[input_collection_changed]` is true, delegate to
`generate_transform_outputs`, else return the empty dict (modelled
`none`). -/
def process_new_transform (transform : Transform) (ret_collections : CollMap) :
    Eff (Option Unit) :=
  match pntLoopOuter ret_collections transform.transform_id
          (ret_collections.map Prod.fst) ([], false) with
  | Except.error e => ⟨[], Except.error e⟩
  | Except.ok (collections, ret_transform) =>
    if ret_transform && transform.input_collection_changed then
      generate_transform_outputs transform collections
    else ⟨[], Except.ok none⟩

/-- A persisted transform row as the status queries see it:
its identifier, its status, and how many seconds it has been
unchanged (for the `period` filter). -/
structure TransformRow where
  transform_id : Nat
  status : TransformStatus
  seconds_unchanged : Nat
deriving DecidableEq

/-- Modelled from the spec:
`core_transforms.get_transforms_by_status(status_set, period?)` is not in
the excerpt; section 4.1 states it returns the rows whose status is in the
given set, where `period` restricts to rows unchanged for at least that
many seconds. -/
def get_transforms_by_status (db : List TransformRow) (status : List TransformStatus)
    (period : Option Nat) : List TransformRow :=
  db.filter fun t =>
    decide (t.status ∈ status) &&
      match period with
      | none => true
      | some p => decide (p ≤ t.seconds_unchanged)

/-- Embedding of `Transformer.get_new_transforms`
(transformer.py lines 43-51): query with status filter `[Ready]` and no
period. -/
def get_new_transforms (db : List TransformRow) : List TransformRow :=
  get_transforms_by_status db [TransformStatus.Ready] none

/-- Embedding of `Transformer.get_monitor_transforms`
(transformer.py lines 108-115): query with status filter `[Transforming]`
and period 3600 seconds. -/
def get_monitor_transforms (db : List TransformRow) : List TransformRow :=
  get_transforms_by_status db [TransformStatus.Transforming] (some 3600)

/-- The literal key list of the parameter loop in
`Transformer.finish_monitor_transforms` (transformer.py line 205). -/
def monitorParamKeys : List String := ["status", "transform_metadata"]

/-- The parameter-building loop of `Transformer.finish_monitor_transforms`
(transformer.py lines 204-207): starting from the empty dict, each key of
the literal list that is present in the returned transform is copied into
the parameter mapping.  The returned transform is modelled as a generic
field mapping so that absence of a field is expressible. -/
def monitorParamLoop {α : Type} (transform : List (String × α)) :
    List String → List (String × α)
  | [] => []
  | k :: ks =>
    match alookup transform k with
    | some v => (k, v) :: monitorParamLoop transform ks
    | none => monitorParamLoop transform ks

/-- Modelled from the spec:
`core_transforms.update_transform(transform_id, fields)` is not in the
excerpt; section 4.1 states it updates exactly the given fields of the
persisted record.  Records are association lists read by first-match
lookup, so prepending the field mapping realises the field-level
update. -/
def update_transform_fields {α : Type} (record fields : List (String × α)) :
    List (String × α) :=
  fields ++ record

/-- One drain step of `Transformer.finish_monitor_transforms`
(transformer.py lines 201-208): build the narrow parameter mapping from
the returned transform and apply it to the persisted record. -/
def finish_monitor_transform_apply {α : Type}
    (record transform : List (String × α)) : List (String × α) :=
  update_transform_fields record (monitorParamLoop transform monitorParamKeys)

/-- What one iteration of the main loop of `Transformer.run`
(transformer.py lines 239-246) observes: the graceful-stop flag found set
at the top of the loop, a normal pass of `prepare_finish_tasks` and
`sleep_for_tasks`, an `IDDSException` escaping the pass, any other
`Exception` escaping it, or a `KeyboardInterrupt` (which is not an
`Exception` subclass and so passes both inner handlers). -/
inductive CycleEvent
  | stopSet
  | ok
  | iddsError
  | otherError
  | keyboardInterrupt
deriving DecidableEq

/-- How the main loop of `Transformer.run` ends. -/
inductive ExitReason
  | gracefulStop
  | interrupted
deriving DecidableEq

/-- Embedding of the main loop of `Transformer.run`
(transformer.py lines 239-248) over a finite schedule of per-iteration
events, counting error log lines.  `while not graceful_stop.is_set()`
exits on `stopSet`; the two inner handlers log an escaping
`IDDSException` or `Exception` and continue; a `KeyboardInterrupt`
reaches the outer handler, which calls `stop()`.  A `none` outcome means
the schedule ended with the loop still running. -/
def runLoop : List CycleEvent → Nat → Option ExitReason × Nat
  | [], logs => (none, logs)
  | e :: es, logs =>
    match e with
    | CycleEvent.stopSet => (some ExitReason.gracefulStop, logs)
    | CycleEvent.ok => runLoop es logs
    | CycleEvent.iddsError => runLoop es (logs + 1)
    | CycleEvent.otherError => runLoop es (logs + 1)
    | CycleEvent.keyboardInterrupt => (some ExitReason.interrupted, logs)

/-! Concrete fixtures used by witnesses and counterexamples. -/

/-- A transform in status Transforming with no statistics attached and an
unchanged input collection. -/
def tFix : Transform := ⟨5, TransformStatus.Transforming, false, none⟩

/-- A single Output collection in status Updated. -/
def ocFix : Collection := ⟨7, CollectionStatus.Updated, CollectionRelationType.Output, []⟩

/-- A single Input collection in status Updated whose upstream metadata
marks it closed. -/
def icFix : Collection :=
  ⟨3, CollectionStatus.Updated, CollectionRelationType.Input, [("ddm_status", "closed")]⟩

/-! Helper lemmas relating a nodup key list to the finset of distinct
statuses it carries. -/

lemma eq_singleton_of_nodup_toFinset {α : Type} [DecidableEq α] {l : List α} {a : α}
    (hnd : l.Nodup) (h : l.toFinset = {a}) : l = [a] := by
  have hcard : l.length = 1 := by
    have hc := List.toFinset_card_of_nodup hnd
    rw [h, Finset.card_singleton] at hc
    exact hc.symm
  obtain ⟨x, hx⟩ := List.length_eq_one.mp hcard
  subst hx
  have hxa : x = a := by
    have hmem : x ∈ ({a} : Finset α) := by
      rw [← h]
      simp
    simpa using hmem
  rw [hxa]

lemma pair_facts_of_nodup_toFinset {α : Type} [DecidableEq α] {l : List α} {a b : α}
    (hnd : l.Nodup) (h : l.toFinset = {a, b}) (hab : a ≠ b) :
    l.length = 2 ∧ a ∈ l ∧ b ∈ l := by
  refine ⟨?_, ?_, ?_⟩
  · have hc := List.toFinset_card_of_nodup hnd
    rw [h, Finset.card_pair hab] at hc
    exact hc.symm
  · rw [← List.mem_toFinset, h]
    exact Finset.mem_insert_self a _
  · rw [← List.mem_toFinset, h]
    exact Finset.mem_insert_of_mem (Finset.mem_singleton_self b)

lemma toFinset_pair_of_mem {α : Type} [DecidableEq α] {l : List α} {a b : α}
    (hnd : l.Nodup) (hlen : l.length = 2) (ha : a ∈ l) (hb : b ∈ l) (hab : a ≠ b) :
    l.toFinset = {a, b} := by
  have hsub : ({a, b} : Finset α) ⊆ l.toFinset := by
    intro x hx
    rw [Finset.mem_insert, Finset.mem_singleton] at hx
    rw [List.mem_toFinset]
    rcases hx with rfl | rfl
    · exact ha
    · exact hb
  have hcard : l.toFinset.card ≤ ({a, b} : Finset α).card := by
    rw [List.toFinset_card_of_nodup hnd, hlen, Finset.card_pair hab]
  exact (Finset.eq_of_subset_of_card_le hsub hcard).symm

/-- C1: for every collection whose content status statistics form a
non-empty mapping, `check_output_contents` decides the transition by
exact precedence on the set of distinct statuses present, ignoring
counts: exactly {Available} gives transform Finished and output
collection Closed; exactly {FinalFailed} gives Failed and Failed;
exactly {Available, FinalFailed} in any order gives SubFinished and
SubClosed; otherwise a set containing New or Failed gives Transforming;
any other combination causes no transition. -/
theorem c1_check_output_contents_precedence
    (t : Transform) (oc : Collection) (ics lcs : List Collection)
    (statsOf : Nat → Stats) (stats : Stats)
    (hstats : statsOf oc.coll_id = stats)
    (hic : ics.length ≤ 1) (hlc : lcs.length ≤ 1)
    (hnd : (stats.map Prod.fst).Nodup) (_hne : stats ≠ []) :
    ((stats.map Prod.fst).toFinset = {ContentStatus.Available} →
      check_output_contents t ics [oc] lcs statsOf =
        ⟨[Write.updateCollection oc.coll_id CollectionStatus.Closed],
         Except.ok { t with status := TransformStatus.Finished,
                            status_statistics := some stats }⟩) ∧
    ((stats.map Prod.fst).toFinset = {ContentStatus.FinalFailed} →
      check_output_contents t ics [oc] lcs statsOf =
        ⟨[Write.updateCollection oc.coll_id CollectionStatus.Failed],
         Except.ok { t with status := TransformStatus.Failed,
                            status_statistics := some stats }⟩) ∧
    ((stats.map Prod.fst).toFinset = {ContentStatus.Available, ContentStatus.FinalFailed} →
      check_output_contents t ics [oc] lcs statsOf =
        ⟨[Write.updateCollection oc.coll_id CollectionStatus.SubClosed],
         Except.ok { t with status := TransformStatus.SubFinished,
                            status_statistics := some stats }⟩) ∧
    ((stats.map Prod.fst).toFinset ≠ {ContentStatus.Available} →
     (stats.map Prod.fst).toFinset ≠ {ContentStatus.FinalFailed} →
     (stats.map Prod.fst).toFinset ≠ {ContentStatus.Available, ContentStatus.FinalFailed} →
     (ContentStatus.New ∈ stats.map Prod.fst ∨ ContentStatus.Failed ∈ stats.map Prod.fst) →
      check_output_contents t ics [oc] lcs statsOf =
        ⟨[], Except.ok { t with status := TransformStatus.Transforming,
                                status_statistics := some stats }⟩) ∧
    ((stats.map Prod.fst).toFinset ≠ {ContentStatus.Available} →
     (stats.map Prod.fst).toFinset ≠ {ContentStatus.FinalFailed} →
     (stats.map Prod.fst).toFinset ≠ {ContentStatus.Available, ContentStatus.FinalFailed} →
     ContentStatus.New ∉ stats.map Prod.fst →
     ContentStatus.Failed ∉ stats.map Prod.fst →
      check_output_contents t ics [oc] lcs statsOf = ⟨[], Except.ok t⟩) := by
  subst hstats
  have hg : ¬(ics.length > 1 ∨ ([oc] : List Collection).length > 1 ∨ lcs.length > 1) := by
    push_neg
    exact ⟨hic, by simp, hlc⟩
  refine ⟨?_, ?_, ?_, ?_, ?_⟩
  · intro hset
    have hkeys := eq_singleton_of_nodup_toFinset hnd hset
    simp only [check_output_contents, List.head?]
    rw [if_neg hg, hkeys, if_pos rfl]
  · intro hset
    have hkeys := eq_singleton_of_nodup_toFinset hnd hset
    simp only [check_output_contents, List.head?]
    rw [if_neg hg, hkeys, if_neg (by decide), if_pos rfl]
  · intro hset
    obtain ⟨hlen, hAv, hFF⟩ := pair_facts_of_nodup_toFinset hnd hset (by decide)
    have h1 : ¬((statsOf oc.coll_id).map Prod.fst = [ContentStatus.Available]) := by
      intro heq
      rw [heq] at hFF
      simp at hFF
    have h2 : ¬((statsOf oc.coll_id).map Prod.fst = [ContentStatus.FinalFailed]) := by
      intro heq
      rw [heq] at hAv
      simp at hAv
    simp only [check_output_contents, List.head?]
    rw [if_neg hg, if_neg h1, if_neg h2, if_pos ⟨hlen, hFF, hAv⟩]
  · intro hta htf htp hNF
    have h1 : ¬((statsOf oc.coll_id).map Prod.fst = [ContentStatus.Available]) := by
      intro heq
      exact hta (by rw [heq]; decide)
    have h2 : ¬((statsOf oc.coll_id).map Prod.fst = [ContentStatus.FinalFailed]) := by
      intro heq
      exact htf (by rw [heq]; decide)
    have h3 : ¬(((statsOf oc.coll_id).map Prod.fst).length = 2
        ∧ ContentStatus.FinalFailed ∈ (statsOf oc.coll_id).map Prod.fst
        ∧ ContentStatus.Available ∈ (statsOf oc.coll_id).map Prod.fst) := by
      rintro ⟨hlen, hFF, hAv⟩
      exact htp (toFinset_pair_of_mem hnd hlen hAv hFF (by decide))
    simp only [check_output_contents, List.head?]
    rw [if_neg hg, if_neg h1, if_neg h2, if_neg h3, if_pos hNF]
  · intro hta htf htp hN hF
    have h1 : ¬((statsOf oc.coll_id).map Prod.fst = [ContentStatus.Available]) := by
      intro heq
      exact hta (by rw [heq]; decide)
    have h2 : ¬((statsOf oc.coll_id).map Prod.fst = [ContentStatus.FinalFailed]) := by
      intro heq
      exact htf (by rw [heq]; decide)
    have h3 : ¬(((statsOf oc.coll_id).map Prod.fst).length = 2
        ∧ ContentStatus.FinalFailed ∈ (statsOf oc.coll_id).map Prod.fst
        ∧ ContentStatus.Available ∈ (statsOf oc.coll_id).map Prod.fst) := by
      rintro ⟨hlen, hFF, hAv⟩
      exact htp (toFinset_pair_of_mem hnd hlen hAv hFF (by decide))
    have h4 : ¬(ContentStatus.New ∈ (statsOf oc.coll_id).map Prod.fst
        ∨ ContentStatus.Failed ∈ (statsOf oc.coll_id).map Prod.fst) := by
      rintro (h | h)
      · exact hN h
      · exact hF h
    simp only [check_output_contents, List.head?]
    rw [if_neg hg, if_neg h1, if_neg h2, if_neg h3, if_neg h4]

/-- Witness for C1: the statistics mapping {Available: 5} drives the
first branch, giving transform Finished and collection Closed. -/
theorem c1_check_output_contents_precedence_witness :
    check_output_contents tFix [] [ocFix] [] (fun _ => [(ContentStatus.Available, 5)]) =
      ⟨[Write.updateCollection ocFix.coll_id CollectionStatus.Closed],
       Except.ok { tFix with status := TransformStatus.Finished,
                             status_statistics := some [(ContentStatus.Available, 5)] }⟩ :=
  (c1_check_output_contents_precedence tFix ocFix [] []
      (fun _ => [(ContentStatus.Available, 5)]) [(ContentStatus.Available, 5)]
      rfl (by decide) (by decide) (by decide) (by decide)).1 (by decide)

/-- C2 (code bug): the monitor path compares each Output collection
status against `CollectionStatus.Updated1`, which is not a member of the
enum, so with a single Output collection in status Updated the monitor
path raises `AttributeError` with zero writes instead of running
`check_output_contents`; the claim (and the spec, which flags the literal
as a defect) requires the aggregator to run for status Updated. -/
theorem c2_monitor_output_loop_attribute_error :
    CollectionStatus.attr "Updated1" = none ∧
    ocFix.coll_status = CollectionStatus.Updated ∧
    process_monitor_transform tFix [ocFix] (fun _ => [(ContentStatus.Available, 1)]) =
      ⟨[], Except.error ErrKind.attributeError⟩ := by
  refine ⟨rfl, rfl, ?_⟩
  decide

/-- C3 (code bug): for a single Input collection in status Updated (the
trigger the monitor loop tests), `fill_new_output_contents` performs no
write at all — no new contents, no input reclassification, no Updated
mark on the output — because its body is guarded by status Update, not
Updated; the claim (and the spec) requires the splitting step and the
status updates to happen for Updated inputs. -/
theorem c3_fill_new_output_contents_dead_for_updated :
    icFix.coll_status = CollectionStatus.Updated ∧
    fill_new_output_contents tFix [icFix] [ocFix] [] = ⟨[], Except.ok ()⟩ ∧
    monitorInputLoop tFix [icFix] [ocFix] [] [icFix] = ⟨[], Except.ok ()⟩ := by
  refine ⟨rfl, by decide, by decide⟩

/-- Counterexample to C4: a statistics mapping whose only key is a status
other than New, Failed, Available, FinalFailed takes the no-transition
branch, and the statistics are not attached: the transform comes back
with its metadata unchanged (here, with no status_statistics key). -/
theorem c4_no_transition_branch_does_not_attach :
    check_output_contents tFix [] [ocFix] [] (fun _ => [(ContentStatus.Other, 2)]) =
      ⟨[], Except.ok tFix⟩ ∧
    tFix.status_statistics = none := by
  exact ⟨by decide, rfl⟩

/-- C4 as amended: in each of the four transition branches of
`check_output_contents` the statistics mapping is attached to the
transform metadata, but in the no-transition branch the transform is
returned unchanged, so nothing is attached there. -/
theorem c4_statistics_attached_on_transition
    (t t2 : Transform) (oc : Collection) (ics lcs : List Collection)
    (statsOf : Nat → Stats)
    (hic : ics.length ≤ 1) (hlc : lcs.length ≤ 1)
    (hres : (check_output_contents t ics [oc] lcs statsOf).result = Except.ok t2) :
    t2.status_statistics = some (statsOf oc.coll_id) ∨ t2 = t := by
  have hg : ¬(ics.length > 1 ∨ ([oc] : List Collection).length > 1 ∨ lcs.length > 1) := by
    push_neg
    exact ⟨hic, by simp, hlc⟩
  simp only [check_output_contents, List.head?] at hres
  rw [if_neg hg] at hres
  by_cases h1 : (statsOf oc.coll_id).map Prod.fst = [ContentStatus.Available]
  · rw [if_pos h1] at hres
    simp at hres
    left
    rw [← hres]
  · rw [if_neg h1] at hres
    by_cases h2 : (statsOf oc.coll_id).map Prod.fst = [ContentStatus.FinalFailed]
    · rw [if_pos h2] at hres
      simp at hres
      left
      rw [← hres]
    · rw [if_neg h2] at hres
      by_cases h3 : ((statsOf oc.coll_id).map Prod.fst).length = 2
          ∧ ContentStatus.FinalFailed ∈ (statsOf oc.coll_id).map Prod.fst
          ∧ ContentStatus.Available ∈ (statsOf oc.coll_id).map Prod.fst
      · rw [if_pos h3] at hres
        simp at hres
        left
        rw [← hres]
      · rw [if_neg h3] at hres
        by_cases h4 : ContentStatus.New ∈ (statsOf oc.coll_id).map Prod.fst
            ∨ ContentStatus.Failed ∈ (statsOf oc.coll_id).map Prod.fst
        · rw [if_pos h4] at hres
          simp at hres
          left
          rw [← hres]
        · rw [if_neg h4] at hres
          simp at hres
          right
          rw [hres]

/-- Witness for the amended C4: with {Available: 1} statistics the
returned transform carries the statistics in its metadata. -/
theorem c4_statistics_attached_on_transition_witness :
    ({ tFix with status := TransformStatus.Finished,
                 status_statistics := some [(ContentStatus.Available, 1)] } : Transform).status_statistics
        = some [(ContentStatus.Available, 1)] ∨
    ({ tFix with status := TransformStatus.Finished,
                 status_statistics := some [(ContentStatus.Available, 1)] } : Transform) = tFix :=
  c4_statistics_attached_on_transition tFix
    { tFix with status := TransformStatus.Finished,
                status_statistics := some [(ContentStatus.Available, 1)] }
    ocFix [] [] (fun _ => [(ContentStatus.Available, 1)])
    (by decide) (by decide) (by decide)

/-- C5: for every transform whose fetched collections contain more than
one Input, more than one Output, or more than one Log collection, both
monitor-path steps — the content-splitting step and the aggregator —
raise the descriptive configuration error with zero persistence writes
before raising. -/
theorem c5_single_collection_guard
    (t : Transform) (ics ocs lcs : List Collection) (statsOf : Nat → Stats)
    (h : ics.length > 1 ∨ ocs.length > 1 ∨ lcs.length > 1) :
    fill_new_output_contents t ics ocs lcs =
      ⟨[], Except.error (ErrKind.idds configErrorMsg)⟩ ∧
    check_output_contents t ics ocs lcs statsOf =
      ⟨[], Except.error (ErrKind.idds configErrorMsg)⟩ := by
  constructor
  · simp only [fill_new_output_contents]
    rw [if_pos h]
  · simp only [check_output_contents]
    rw [if_pos h]

/-- Witness for C5: two Input collections trigger the configuration
error in both steps with no writes. -/
theorem c5_single_collection_guard_witness :
    fill_new_output_contents tFix [icFix, icFix] [ocFix] [] =
      ⟨[], Except.error (ErrKind.idds configErrorMsg)⟩ ∧
    check_output_contents tFix [icFix, icFix] [ocFix] [] (fun _ => []) =
      ⟨[], Except.error (ErrKind.idds configErrorMsg)⟩ :=
  c5_single_collection_guard tFix [icFix, icFix] [ocFix] [] (fun _ => [])
    (Or.inl (by decide))

/-! Lemmas on association-list lookup and the nested loop of
`process_new_transform`. -/

lemma alookup_isSome_of_mem_keys {κ α : Type} [DecidableEq κ]
    {m : List (κ × α)} {k : κ} (h : k ∈ m.map Prod.fst) :
    (alookup m k).isSome := by
  induction m with
  | nil => simp at h
  | cons p r ih =>
    obtain ⟨k1, v1⟩ := p
    simp only [alookup]
    by_cases hk : k1 = k
    · rw [if_pos hk]
      rfl
    · rw [if_neg hk]
      apply ih
      simp only [List.map_cons, List.mem_cons] at h
      rcases h with rfl | h
      · exact absurd rfl hk
      · exact h

lemma alookup_mem {κ α : Type} [DecidableEq κ]
    {m : List (κ × α)} {k : κ} {v : α} (h : alookup m k = some v) :
    (k, v) ∈ m := by
  induction m with
  | nil => simp [alookup] at h
  | cons p r ih =>
    obtain ⟨k1, v1⟩ := p
    simp only [alookup] at h
    by_cases hk : k1 = k
    · rw [if_pos hk] at h
      injection h with h
      subst hk
      subst h
      exact List.mem_cons_self _ _
    · rw [if_neg hk] at h
      exact List.mem_cons_of_mem _ (ih h)

lemma pntLoopInner_ok (m : CollMap) (tid rid : Nat) (ks : List Nat)
    (st : List Collection × Bool)
    (hm : ∀ p ∈ m, (alookup p.2 tid).isSome)
    (hrid : rid ∈ m.map Prod.fst) :
    ∃ st2, pntLoopInner m tid rid ks st = Except.ok st2 := by
  induction ks generalizing st with
  | nil => exact ⟨st, rfl⟩
  | cons k ks ih =>
    simp only [pntLoopInner]
    by_cases hk : k = tid
    · rw [if_pos hk]
      subst hk
      obtain ⟨inner, hinner⟩ := Option.isSome_iff_exists.mp (alookup_isSome_of_mem_keys hrid)
      have hmem := alookup_mem hinner
      obtain ⟨colls, hcolls⟩ := Option.isSome_iff_exists.mp (hm _ hmem)
      have hcolls2 : alookup inner k = some colls := hcolls
      simp only [hinner, hcolls2]
      exact ih _
    · rw [if_neg hk]
      exact ih st

lemma pntLoopOuter_ok (m : CollMap) (tid : Nat) (rids : List Nat)
    (st : List Collection × Bool)
    (hm : ∀ p ∈ m, (alookup p.2 tid).isSome)
    (hrids : ∀ r ∈ rids, r ∈ m.map Prod.fst) :
    ∃ st2, pntLoopOuter m tid rids st = Except.ok st2 := by
  induction rids generalizing st with
  | nil => exact ⟨st, rfl⟩
  | cons rid rest ih =>
    simp only [pntLoopOuter]
    obtain ⟨st2, hst2⟩ := pntLoopInner_ok m tid rid (m.map Prod.fst) st hm
      (hrids rid (List.mem_cons_self _ _))
    rw [hst2]
    exact ih st2 (fun r hr => hrids r (List.mem_cons_of_mem _ hr))

/-- C6: for every Ready transform whose metadata has
`input_collection_changed = false`, the new-transform path returns the
empty result with zero persistence writes (so the transform status stays
Ready), provided the gateway returns the collections grouped with the
requested transform_id present in every inner mapping (the contract of
`get_collections_by_request_transform_id(transform_id=...)`). -/
theorem c6_unchanged_input_no_op (t : Transform) (ret_collections : CollMap)
    (_hready : t.status = TransformStatus.Ready)
    (hflag : t.input_collection_changed = false)
    (hm : ∀ p ∈ ret_collections, (alookup p.2 t.transform_id).isSome) :
    process_new_transform t ret_collections = ⟨[], Except.ok none⟩ := by
  obtain ⟨st2, hst2⟩ := pntLoopOuter_ok ret_collections t.transform_id
    (ret_collections.map Prod.fst) ([], false) hm (fun r hr => hr)
  simp only [process_new_transform]
  rw [hst2]
  obtain ⟨colls, b⟩ := st2
  simp [hflag]

/-- Witness for C6: a Ready transform with an unchanged input collection
and a well-formed gateway result yields the empty result. -/
theorem c6_unchanged_input_no_op_witness :
    process_new_transform ⟨5, TransformStatus.Ready, false, none⟩ [(1, [(5, [])])] =
      ⟨[], Except.ok none⟩ :=
  c6_unchanged_input_no_op ⟨5, TransformStatus.Ready, false, none⟩ [(1, [(5, [])])]
    rfl rfl (by decide)

/-- C7: draining a completed monitor result writes back only the status
and transform_metadata fields of the returned transform: every other
field of the persisted record reads unchanged after the update, a field
absent from the result is not written at all, and a field present in the
result is applied with its returned value. -/
theorem c7_finish_monitor_narrow_update {α : Type}
    (record transform : List (String × α)) (f : String)
    (hf1 : f ≠ "status") (hf2 : f ≠ "transform_metadata") :
    alookup (finish_monitor_transform_apply record transform) f = alookup record f ∧
    (alookup transform "status" = none →
      alookup (finish_monitor_transform_apply record transform) "status"
        = alookup record "status") ∧
    (alookup transform "transform_metadata" = none →
      alookup (finish_monitor_transform_apply record transform) "transform_metadata"
        = alookup record "transform_metadata") ∧
    (∀ v, alookup transform "status" = some v →
      alookup (finish_monitor_transform_apply record transform) "status" = some v) ∧
    (∀ v, alookup transform "transform_metadata" = some v →
      alookup (finish_monitor_transform_apply record transform) "transform_metadata"
        = some v) := by
  rcases hs : alookup transform "status" with _ | vs <;>
    rcases ht : alookup transform "transform_metadata" with _ | vt <;>
      refine ⟨?_, ?_, ?_, ?_, ?_⟩ <;>
        simp_all [finish_monitor_transform_apply, update_transform_fields,
          monitorParamLoop, monitorParamKeys, alookup, Ne.symm hf1, Ne.symm hf2]

/-- Witness for C7: updating a record with a result that carries only a
status leaves an unrelated field and the absent metadata field unchanged
and applies the returned status. -/
theorem c7_finish_monitor_narrow_update_witness :
    alookup (finish_monitor_transform_apply [("x", 1), ("status", 2)] [("status", 9)]) "x"
      = alookup [("x", 1), ("status", 2)] "x" ∧
    (alookup ([("status", 9)] : List (String × Nat)) "status" = none →
      alookup (finish_monitor_transform_apply [("x", 1), ("status", 2)] [("status", 9)]) "status"
        = alookup [("x", 1), ("status", 2)] "status") ∧
    (alookup ([("status", 9)] : List (String × Nat)) "transform_metadata" = none →
      alookup (finish_monitor_transform_apply [("x", 1), ("status", 2)] [("status", 9)])
          "transform_metadata"
        = alookup [("x", 1), ("status", 2)] "transform_metadata") ∧
    (∀ v, alookup ([("status", 9)] : List (String × Nat)) "status" = some v →
      alookup (finish_monitor_transform_apply [("x", 1), ("status", 2)] [("status", 9)]) "status"
        = some v) ∧
    (∀ v, alookup ([("status", 9)] : List (String × Nat)) "transform_metadata" = some v →
      alookup (finish_monitor_transform_apply [("x", 1), ("status", 2)] [("status", 9)])
          "transform_metadata"
        = some v) :=
  c7_finish_monitor_narrow_update [("x", 1), ("status", 2)] [("status", 9)] "x"
    (by decide) (by decide)

/-- C8: the new-transform query selects exactly the Ready transforms and
the monitor query exactly the Transforming ones (throttled by 3600
seconds), so with unique row identifiers no transform_id is selected by
both queries in one poll cycle. -/
theorem c8_disjoint_status_filters (db : List TransformRow) (t1 t2 : TransformRow)
    (hids : ∀ u ∈ db, ∀ v ∈ db, u.transform_id = v.transform_id → u = v)
    (h1 : t1 ∈ get_new_transforms db) (h2 : t2 ∈ get_monitor_transforms db) :
    t1.transform_id ≠ t2.transform_id := by
  intro heq
  simp only [get_new_transforms, get_transforms_by_status, List.mem_filter,
    Bool.and_eq_true, decide_eq_true_eq, List.mem_singleton] at h1
  simp only [get_monitor_transforms, get_transforms_by_status, List.mem_filter,
    Bool.and_eq_true, decide_eq_true_eq, List.mem_singleton] at h2
  have ht12 : t1 = t2 := hids t1 h1.1 t2 h2.1 heq
  have hs1 : t1.status = TransformStatus.Ready := h1.2.1
  have hs2 : t2.status = TransformStatus.Transforming := h2.2.1
  rw [ht12, hs2] at hs1
  cases hs1

/-- Witness for C8: in a database with a Ready row 1 and a throttled
Transforming row 2, row 1 is selected by the new query, row 2 by the
monitor query, and their identifiers differ. -/
theorem c8_disjoint_status_filters_witness :
    (⟨1, TransformStatus.Ready, 0⟩ : TransformRow).transform_id ≠
      (⟨2, TransformStatus.Transforming, 4000⟩ : TransformRow).transform_id :=
  c8_disjoint_status_filters
    [⟨1, TransformStatus.Ready, 0⟩, ⟨2, TransformStatus.Transforming, 4000⟩]
    ⟨1, TransformStatus.Ready, 0⟩ ⟨2, TransformStatus.Transforming, 4000⟩
    (by decide) (by decide) (by decide)

/-- C9: every exception escaping one iteration of the main loop — the
internal IDDSException and any other Exception — is logged and the loop
continues with the next iteration; the loop terminates only on the
graceful-stop signal or on a keyboard interrupt. -/
theorem c9_run_loop_error_handling :
    (∀ es logs r logs2, runLoop es logs = (some r, logs2) →
        r = ExitReason.gracefulStop ∨ r = ExitReason.interrupted) ∧
    (∀ es logs, runLoop (CycleEvent.iddsError :: es) logs = runLoop es (logs + 1)) ∧
    (∀ es logs, runLoop (CycleEvent.otherError :: es) logs = runLoop es (logs + 1)) := by
  refine ⟨?_, fun es logs => rfl, fun es logs => rfl⟩
  intro es
  induction es with
  | nil =>
    intro logs r logs2 h
    simp [runLoop] at h
  | cons e rest ih =>
    intro logs r logs2 h
    cases e with
    | stopSet =>
      simp only [runLoop, Prod.mk.injEq, Option.some.injEq] at h
      exact Or.inl h.1.symm
    | ok => exact ih logs r logs2 h
    | iddsError => exact ih (logs + 1) r logs2 h
    | otherError => exact ih (logs + 1) r logs2 h
    | keyboardInterrupt =>
      simp only [runLoop, Prod.mk.injEq, Option.some.injEq] at h
      exact Or.inr h.1.symm

/-- Witness for C9: a schedule with an IDDSException in its first
iteration logs it, continues, and later exits on the graceful-stop
signal. -/
theorem c9_run_loop_error_handling_witness :
    ExitReason.gracefulStop = ExitReason.gracefulStop ∨
    ExitReason.gracefulStop = ExitReason.interrupted :=
  c9_run_loop_error_handling.1 [CycleEvent.iddsError, CycleEvent.stopSet] 0
    ExitReason.gracefulStop 1 (by decide)

/-- Counterexample to C10: with zero Input collections and one Output
collection, `check_output_contents` does not fail with an out-of-range
index access — it never indexes the input list — and instead completes
its first branch normally. -/
theorem c10_check_zero_input_no_index_error :
    check_output_contents tFix [] [ocFix] [] (fun _ => [(ContentStatus.Available, 1)]) ≠
      ⟨[], Except.error ErrKind.indexError⟩ ∧
    (check_output_contents tFix [] [ocFix] [] (fun _ => [(ContentStatus.Available, 1)])).result =
      Except.ok { tFix with status := TransformStatus.Finished,
                            status_statistics := some [(ContentStatus.Available, 1)] } := by
  decide

/-- C10 as amended: the guards check only for counts greater than one,
not zero: `fill_new_output_contents` fails with an out-of-range index
access (not the configuration error) when the Input or the Output list
is empty, and `check_output_contents` fails the same way when the Output
list is empty; a zero Input list alone does not make
`check_output_contents` fail, since it never indexes the input list. -/
theorem c10_zero_collection_index_error
    (t : Transform) (ics ocs lcs : List Collection) (statsOf : Nat → Stats)
    (hic : ics.length ≤ 1) (hoc : ocs.length ≤ 1) (hlc : lcs.length ≤ 1) :
    ((ics = [] ∨ ocs = []) →
      fill_new_output_contents t ics ocs lcs = ⟨[], Except.error ErrKind.indexError⟩) ∧
    (ocs = [] →
      check_output_contents t ics ocs lcs statsOf =
        ⟨[], Except.error ErrKind.indexError⟩) := by
  have hg : ¬(ics.length > 1 ∨ ocs.length > 1 ∨ lcs.length > 1) := by
    push_neg
    exact ⟨hic, hoc, hlc⟩
  constructor
  · rintro (rfl | rfl)
    · simp only [fill_new_output_contents]
      rw [if_neg hg]
      rfl
    · simp only [fill_new_output_contents]
      rw [if_neg hg]
      cases ics with
      | nil => rfl
      | cons a rest => rfl
  · rintro rfl
    simp only [check_output_contents]
    rw [if_neg hg]
    rfl

/-- Witness for the amended C10: one Input and zero Output collections
make both steps raise the index error. -/
theorem c10_zero_collection_index_error_witness :
    fill_new_output_contents tFix [icFix] [] [] =
      ⟨[], Except.error ErrKind.indexError⟩ ∧
    check_output_contents tFix [icFix] [] [] (fun _ => []) =
      ⟨[], Except.error ErrKind.indexError⟩ := by
  have h := c10_zero_collection_index_error tFix [icFix] [] [] (fun _ => [])
    (by decide) (by decide) (by decide)
  exact ⟨h.1 (Or.inr rfl), h.2 rfl⟩

end IDDS
